import Mathlib

/-!
Verification of the chunimidi streaming LED-packet decoder.

The definitions below are a shallow embedding of src/main.rs: the framing
constants, the escape-removal scan of try_parse_packet, the board payload
mapper (bytes_to_rgb_vec, reverse_slider_leds), the zone reducer
(slider_to_drum_pads), and the stream-loop orchestration (frame-marker
search, drain policy, drum-pad deduplication).  Bytes are modelled as Nat;
u8 wrapping arithmetic is written with an explicit mod 256.  A Rust panic
(a failing unwrap) is modelled as the explicit outcome ParseResult.panicked.
-/

namespace Chunimidi

def LED_PACKET_FRAMING : Nat := 0xE0

def LED_PACKET_ESCAPE : Nat := 0xD0

def LED_BOARDS_TOTAL : Nat := 3

def CHUNI_LED_BOARD_DATA_LENS : List Nat := [53 * 3, 63 * 3, 31 * 3]

structure Rgb where
  r : Nat
  g : Nat
  b : Nat
deriving DecidableEq

inductive LedBoard where
  | billboardLeft (main : List Rgb) (sides : List Rgb)
  | billboardRight (main : List Rgb) (sides : List Rgb)
  | slider (leds : List Rgb)
deriving DecidableEq

structure LedPacket where
  board : Nat
  payload : LedBoard
deriving DecidableEq

/-- Outcome of try_parse_packet.  ok carries the packet and the number of raw
bytes consumed; panicked models a failing unwrap in the Rust source. -/
inductive ParseResult where
  | ok (p : LedPacket) (used : Nat)
  | invalid
  | incomplete
  | panicked
deriving DecidableEq

/-- bytes_to_rgb_vec of src/main.rs: chunks of 3, incomplete trailing chunk
dropped, each chunk (c0, c1, c2) mapped to Rgb with r = c1, g = c2, b = c0. -/
def bytes_to_rgb_vec : List Nat → List Rgb
  | b0 :: b1 :: b2 :: rest => ⟨b1, b2, b0⟩ :: bytes_to_rgb_vec rest
  | _ => []

/-- reverse_slider_leds of src/main.rs. -/
def reverse_slider_leds (leds : List Rgb) : List Rgb :=
  leds.reverse

/-- The try_from conversion of a slice into a fixed-size array: succeeds
exactly when the slice has the requested length. -/
def tryFromArr (n : Nat) (l : List Rgb) : Option (List Rgb) :=
  if l.length = n then some l else none

/-- The scanning while-loop of try_parse_packet, with its state (the index i
into buf and the decoded accumulator) passed explicitly.  The loop runs while
i is in bounds and the decoded output is short of expected; an escape byte
consumes the following byte as well and pushes that byte plus one mod 256;
a dangling escape at the end of the buffer aborts with none (Incomplete). -/
def parseLoop (buf : List Nat) (expected : Nat) (i : Nat) (decoded : List Nat) :
    Option (List Nat × Nat) :=
  if h : i < buf.length ∧ decoded.length < expected then
    if buf.getD i 0 = LED_PACKET_ESCAPE then
      if i + 1 < buf.length then
        parseLoop buf expected (i + 2) (decoded ++ [(buf.getD (i + 1) 0 + 1) % 256])
      else
        none
    else
      parseLoop buf expected (i + 1) (decoded ++ [buf.getD i 0])
  else
    some (decoded, i)
termination_by buf.length - i
decreasing_by
  · omega
  · omega

/-- try_parse_packet of src/main.rs.  Header checks, the de-stuffing scan,
then the board payload mapper; the unwrap calls on the fixed-size array
conversions are modelled with tryFromArr, a failure being panicked. -/
def try_parse_packet (buf : List Nat) : ParseResult :=
  if buf.length < 2 ∨ buf.getD 0 0 ≠ LED_PACKET_FRAMING then
    .invalid
  else
    let board := buf.getD 1 0
    if LED_BOARDS_TOTAL ≤ board then
      .invalid
    else
      let expected := CHUNI_LED_BOARD_DATA_LENS.getD board 0
      match parseLoop buf expected 2 [] with
      | none => .incomplete
      | some (decoded, i) =>
        if decoded.length < expected then
          .incomplete
        else
          let rgb_vec := bytes_to_rgb_vec decoded
          match board with
          | 0 =>
            match tryFromArr 53 (rgb_vec.take 53), tryFromArr 3 (rgb_vec.drop 53) with
            | some m, some s => .ok ⟨0, .billboardLeft m s⟩ i
            | _, _ => .panicked
          | 1 =>
            match tryFromArr 60 (rgb_vec.take 60), tryFromArr 3 (rgb_vec.drop 60) with
            | some m, some s => .ok ⟨1, .billboardRight m s⟩ i
            | _, _ => .panicked
          | 2 =>
            match tryFromArr 31 rgb_vec with
            | some l => .ok ⟨2, .slider (reverse_slider_leds l)⟩ i
            | none => .panicked
          | _ => .invalid

/-- The de-stuffing scan as the spec words it (section 4.1 / step 4 of 4.2):
structural recursion on the payload slice.  Given the remaining payload bytes
and the number of decoded bytes still wanted, it returns the decoded bytes
and the raw bytes consumed, or none when the buffer ends right after an
escape marker.  Scanning stops at target 0 or at the end of the buffer. -/
def destuffSpec : List Nat → Nat → Option (List Nat × Nat)
  | _, 0 => some ([], 0)
  | [], _ + 1 => some ([], 0)
  | b :: rest, t + 1 =>
    if b = LED_PACKET_ESCAPE then
      match rest with
      | [] => none
      | c :: rest2 =>
        (destuffSpec rest2 t).map (fun p => ((c + 1) % 256 :: p.1, p.2 + 2))
    else
      (destuffSpec rest t).map (fun p => (b :: p.1, p.2 + 1))

/-- The Board Payload Mapper (spec section 4.3): slice the color sequence
into the board's fixed variant shape, a wrong length being the modelled
unwrap panic. -/
def mapPayload (board : Nat) (rgb_vec : List Rgb) (used : Nat) : ParseResult :=
  match board with
  | 0 =>
    match tryFromArr 53 (rgb_vec.take 53), tryFromArr 3 (rgb_vec.drop 53) with
    | some m, some s => .ok ⟨0, .billboardLeft m s⟩ used
    | _, _ => .panicked
  | 1 =>
    match tryFromArr 60 (rgb_vec.take 60), tryFromArr 3 (rgb_vec.drop 60) with
    | some m, some s => .ok ⟨1, .billboardRight m s⟩ used
    | _, _ => .panicked
  | 2 =>
    match tryFromArr 31 rgb_vec with
    | some l => .ok ⟨2, .slider (reverse_slider_leds l)⟩ used
    | none => .panicked
  | _ => .invalid

/-- What follows the de-stuffing scan for a given board: Incomplete on a
dangling escape or a short decoded output, otherwise the payload mapper on
the triples, with the header's 2 bytes added to the consumed count. -/
def finishParse (board : Nat) (scanned : Option (List Nat × Nat)) : ParseResult :=
  match scanned with
  | none => .incomplete
  | some (decoded, n) =>
    if decoded.length < CHUNI_LED_BOARD_DATA_LENS.getD board 0 then
      .incomplete
    else
      mapPayload board (bytes_to_rgb_vec decoded) (n + 2)

/-- The Frame Decoder as the spec describes it (section 4.2), built on
destuffSpec: header checks, the de-stuffing scan from offset 2, the length
check, then the board payload mapper.  Used as an executable restatement of
try_parse_packet, proved equal to it below. -/
def tryParseSpec (buf : List Nat) : ParseResult :=
  if buf.length < 2 ∨ buf.getD 0 0 ≠ LED_PACKET_FRAMING then
    .invalid
  else if LED_BOARDS_TOTAL ≤ buf.getD 1 0 then
    .invalid
  else
    finishParse (buf.getD 1 0)
      (destuffSpec (buf.drop 2) (CHUNI_LED_BOARD_DATA_LENS.getD (buf.getD 1 0) 0))

/-- The shape a successfully decoded packet must have: decoded bytes grouped
into triples with channel reorder r = byte1, g = byte2, b = byte0; board 0
split 53 main + 3 side, board 1 split 60 main + 3 side, board 2 the 31
colors reversed, so physical index i is wire triple 30 - i. -/
def decodedPayloadShape (buf : List Nat) (p : LedPacket) (used : Nat) : Prop :=
  (∀ b0 b1 b2 rest, bytes_to_rgb_vec (b0 :: b1 :: b2 :: rest) =
    ⟨b1, b2, b0⟩ :: bytes_to_rgb_vec rest) ∧
  ∃ d n, destuffSpec (buf.drop 2) (CHUNI_LED_BOARD_DATA_LENS.getD (buf.getD 1 0) 0) =
      some (d, n) ∧
    p.board = buf.getD 1 0 ∧ used = n + 2 ∧
    (p.board = 0 → p.payload =
      .billboardLeft ((bytes_to_rgb_vec d).take 53) ((bytes_to_rgb_vec d).drop 53)) ∧
    (p.board = 1 → p.payload =
      .billboardRight ((bytes_to_rgb_vec d).take 60) ((bytes_to_rgb_vec d).drop 60)) ∧
    (p.board = 2 → p.payload = .slider ((bytes_to_rgb_vec d).reverse) ∧
      ∀ i, i < 31 → ((bytes_to_rgb_vec d).reverse).getD i ⟨0, 0, 0⟩ =
        (bytes_to_rgb_vec d).getD (30 - i) ⟨0, 0, 0⟩)

/-- The group of slider LEDs feeding drum pad pad_idx, as sliced in
slider_to_drum_pads of src/main.rs. -/
def zoneGroup (leds : List Rgb) (pad_idx : Nat) : List Rgb :=
  let start_led := pad_idx * 4
  let end_led := min (start_led + 4) 31
  (leds.drop start_led).take (end_led - start_led)

/-- The per-pad averaging of slider_to_drum_pads: per-channel sum over the
group, truncating division by the member count, narrowed to u8 (mod 256);
black when the group is empty. -/
def padColor (group : List Rgb) : Rgb :=
  let count := group.length
  if 0 < count then
    { r := ((group.map Rgb.r).sum / count) % 256
      g := ((group.map Rgb.g).sum / count) % 256
      b := ((group.map Rgb.b).sum / count) % 256 }
  else
    { r := 0, g := 0, b := 0 }

/-- slider_to_drum_pads of src/main.rs: 8 pads, pad i averaging the LEDs at
indices 4i to min (4i+4) 31. -/
def slider_to_drum_pads (leds : List Rgb) : List Rgb :=
  (List.range 8).map (fun pad_idx => padColor (zoneGroup leds pad_idx))

/-- Modelled from the spec: the arcade-side byte-stuffing encoder is not part
of this repository (only the decoder is).  Following sections 6 and 8 of the
spec, a protocol-significant byte (the escape marker 0xD0 or the frame marker
0xE0) is emitted as the escape marker followed by the byte's value minus one
mod 256, and every other byte is emitted verbatim. -/
def encode_payload (payload : List Nat) : List Nat :=
  payload.flatMap (fun b =>
    if b = LED_PACKET_ESCAPE ∨ b = LED_PACKET_FRAMING then
      [LED_PACKET_ESCAPE, (b + 255) % 256]
    else
      [b])

/-- One deduplication cycle of the stream loop in main: last is the
remembered last forwarded summary, pads the freshly computed one, sinkOk
whether the MIDI send succeeds.  Returns whether the sink call is made and
the new remembered state: the state is updated only on a successful send. -/
def dedupStep (last : Option (List Rgb)) (pads : List Rgb) (sinkOk : Bool) :
    Bool × Option (List Rgb) :=
  let shouldSend :=
    match last with
    | none => true
    | some l => decide (l ≠ pads)
  if shouldSend then
    (true, if sinkOk then some pads else last)
  else
    (false, last)

/-- The iter().position search for the frame marker in main's inner loop. -/
def firstMarkerPos : List Nat → Option Nat
  | [] => none
  | b :: rest =>
    if b = LED_PACKET_FRAMING then some 0 else (firstMarkerPos rest).map (· + 1)

/-- What one iteration of the inner stream loop does to the window:
continueWith means the loop iterates again on the new window, waitWith means
the inner loop ends keeping the window (waiting for more bytes), crashed
models a panic aborting the program. -/
inductive StepResult where
  | continueWith (w : List Nat)
  | waitWith (w : List Nat)
  | crashed
deriving DecidableEq

/-- The dispatch on the parse outcome in main's inner loop, applied to the
window once the garbage before the frame marker has been drained: on success
drain the consumed count, on Invalid drain one byte, on Incomplete stop and
wait; a panic aborts the program. -/
def stepAfterSync (w : List Nat) : StepResult :=
  match try_parse_packet w with
  | .ok _ used => .continueWith (w.drop used)
  | .invalid => .continueWith (w.drop 1)
  | .incomplete => .waitWith w
  | .panicked => .crashed

/-- One iteration of main's inner while-let loop: find the next frame marker,
drain the garbage before it, then dispatch on the parse outcome; when no
marker is in the window the inner loop ends keeping the window. -/
def innerStep (window : List Nat) : StepResult :=
  match firstMarkerPos window with
  | none => .waitWith window
  | some pos => stepAfterSync (window.drop pos)

/-! ## The scanning loop implements the spec's de-stuffing recursion -/

theorem destuffSpec_esc (c : Nat) (rest : List Nat) (t : Nat) :
    destuffSpec (LED_PACKET_ESCAPE :: c :: rest) (t + 1) =
      (destuffSpec rest t).map (fun p => ((c + 1) % 256 :: p.1, p.2 + 2)) := by
  simp [destuffSpec]

theorem destuffSpec_esc_nil (t : Nat) :
    destuffSpec [LED_PACKET_ESCAPE] (t + 1) = none := by
  simp [destuffSpec]

theorem destuffSpec_cons (b : Nat) (rest : List Nat) (t : Nat) (h : ¬ b = LED_PACKET_ESCAPE) :
    destuffSpec (b :: rest) (t + 1) =
      (destuffSpec rest t).map (fun p => (b :: p.1, p.2 + 1)) := by
  cases rest <;> simp [destuffSpec, h]

theorem parseLoop_destuff (buf : List Nat) (expected : Nat) :
    ∀ k i decoded, buf.length - i ≤ k →
      parseLoop buf expected i decoded =
        (destuffSpec (buf.drop i) (expected - decoded.length)).map
          (fun p => (decoded ++ p.1, p.2 + i)) := by
  intro k
  induction k with
  | zero =>
    intro i decoded hk
    have hge : buf.length ≤ i := by omega
    rw [parseLoop, dif_neg (by omega)]
    rw [List.drop_eq_nil_of_le hge]
    cases h : expected - decoded.length with
    | zero => simp [destuffSpec]
    | succ t => simp [destuffSpec]
  | succ k ih =>
    intro i decoded hk
    by_cases h1 : i < buf.length ∧ decoded.length < expected
    · have hi : i < buf.length := h1.1
      have hd : decoded.length < expected := h1.2
      obtain ⟨t, ht⟩ : ∃ t, expected - decoded.length = t + 1 :=
        ⟨expected - decoded.length - 1, by omega⟩
      have hdrop : buf.drop i = buf[i] :: buf.drop (i + 1) :=
        List.drop_eq_getElem_cons hi
      have hgetD : buf.getD i 0 = buf[i] := List.getD_eq_getElem buf 0 hi
      rw [parseLoop, dif_pos h1, hdrop, ht]
      by_cases hesc : buf.getD i 0 = LED_PACKET_ESCAPE
      · rw [if_pos hesc]
        have hescElem : buf[i] = LED_PACKET_ESCAPE := by rw [← hgetD]; exact hesc
        by_cases hnext : i + 1 < buf.length
        · rw [if_pos hnext]
          have hdrop2 : buf.drop (i + 1) = buf[i + 1] :: buf.drop (i + 2) :=
            List.drop_eq_getElem_cons hnext
          have hget2 : buf.getD (i + 1) 0 = buf[i + 1] := List.getD_eq_getElem buf 0 hnext
          rw [ih (i + 2) (decoded ++ [(buf.getD (i + 1) 0 + 1) % 256]) (by omega)]
          have harith : expected - (decoded ++ [(buf.getD (i + 1) 0 + 1) % 256]).length = t := by
            simp only [List.length_append, List.length_cons, List.length_nil]
            omega
          rw [harith, hdrop2, hescElem, destuffSpec_esc, hget2]
          cases hD : destuffSpec (buf.drop (i + 2)) t with
          | none => simp [hD]
          | some p =>
            simp [hD]
            omega
        · rw [if_neg hnext]
          have hdrop2 : buf.drop (i + 1) = [] := by
            apply List.drop_eq_nil_of_le; omega
          rw [hdrop2, hescElem, destuffSpec_esc_nil]
          simp
      · rw [if_neg hesc]
        rw [ih (i + 1) (decoded ++ [buf.getD i 0]) (by omega)]
        have harith : expected - (decoded ++ [buf.getD i 0]).length = t := by
          simp only [List.length_append, List.length_cons, List.length_nil]
          omega
        rw [harith]
        have hescElem : ¬ buf[i] = LED_PACKET_ESCAPE := by rw [← hgetD]; exact hesc
        rw [destuffSpec_cons _ _ _ hescElem]
        cases hD : destuffSpec (buf.drop (i + 1)) t with
        | none => simp [hD]
        | some p =>
          have hopt : buf[i]?.getD 0 = buf[i] := by
            rw [List.getElem?_eq_getElem hi]
            rfl
          simp [hD, hgetD, hopt]
          omega
    · rw [parseLoop, dif_neg h1]
      by_cases hlen : i < buf.length
      · have hfull : expected ≤ decoded.length := by omega
        have : expected - decoded.length = 0 := by omega
        rw [this]
        simp [destuffSpec]
      · rw [List.drop_eq_nil_of_le (by omega)]
        cases h : expected - decoded.length with
        | zero => simp [destuffSpec]
        | succ t => simp [destuffSpec]

theorem parseLoop_run (buf : List Nat) (expected : Nat) :
    parseLoop buf expected 2 [] =
      (destuffSpec (buf.drop 2) expected).map (fun p => (p.1, p.2 + 2)) := by
  rw [parseLoop_destuff buf expected buf.length 2 [] (by omega)]
  simp

/-- try_parse_packet computes exactly what the spec-level decoder
tryParseSpec computes. -/
theorem try_parse_eq_spec (buf : List Nat) : try_parse_packet buf = tryParseSpec buf := by
  simp only [try_parse_packet, tryParseSpec, parseLoop_run]
  cases hD : destuffSpec (buf.drop 2) (CHUNI_LED_BOARD_DATA_LENS.getD (buf.getD 1 0) 0) with
  | none => rfl
  | some p => rfl

theorem mapPayload_ne_invalid (board : Nat) (hb : board < 3)
    (rgb_vec : List Rgb) (used : Nat) : mapPayload board rgb_vec used ≠ .invalid := by
  interval_cases board
  · unfold mapPayload
    rcases hm : tryFromArr 53 (rgb_vec.take 53) with _ | m <;>
      rcases hs : tryFromArr 3 (rgb_vec.drop 53) with _ | s <;> simp
  · unfold mapPayload
    rcases hm : tryFromArr 60 (rgb_vec.take 60) with _ | m <;>
      rcases hs : tryFromArr 3 (rgb_vec.drop 60) with _ | s <;> simp
  · unfold mapPayload
    rcases hm : tryFromArr 31 rgb_vec with _ | m <;> simp

theorem finishParse_ne_invalid (board : Nat) (hb : board < 3)
    (scanned : Option (List Nat × Nat)) : finishParse board scanned ≠ .invalid := by
  cases scanned with
  | none => simp [finishParse]
  | some p =>
    obtain ⟨decoded, n⟩ := p
    show (if decoded.length < CHUNI_LED_BOARD_DATA_LENS.getD board 0 then ParseResult.incomplete
        else mapPayload board (bytes_to_rgb_vec decoded) (n + 2)) ≠ ParseResult.invalid
    by_cases hlen2 : decoded.length < CHUNI_LED_BOARD_DATA_LENS.getD board 0
    · rw [if_pos hlen2]
      simp
    · rw [if_neg hlen2]
      exact mapPayload_ne_invalid board hb _ _

theorem destuffSpec_zero (l : List Nat) : destuffSpec l 0 = some ([], 0) := by
  cases l <;> simp [destuffSpec]

theorem destuffSpec_nil (t : Nat) : destuffSpec [] t = some ([], 0) := by
  cases t <;> simp [destuffSpec]

theorem destuffSpec_length_le :
    ∀ (t : Nat) (l d : List Nat) (n : Nat), destuffSpec l t = some (d, n) → d.length ≤ t := by
  intro t
  induction t with
  | zero =>
    intro l d n h
    rw [destuffSpec_zero] at h
    simp only [Option.some.injEq, Prod.mk.injEq] at h
    simp [← h.1]
  | succ t ih =>
    intro l d n h
    cases l with
    | nil =>
      rw [destuffSpec_nil] at h
      simp only [Option.some.injEq, Prod.mk.injEq] at h
      simp [← h.1]
    | cons b rest =>
      by_cases hb : b = LED_PACKET_ESCAPE
      · subst hb
        cases rest with
        | nil =>
          rw [destuffSpec_esc_nil] at h
          cases h
        | cons c rest2 =>
          rw [destuffSpec_esc] at h
          cases hD : destuffSpec rest2 t with
          | none => rw [hD] at h; cases h
          | some q =>
            obtain ⟨d2, n2⟩ := q
            rw [hD] at h
            simp only [Option.map_some', Option.some.injEq, Prod.mk.injEq] at h
            have := ih rest2 d2 n2 hD
            rw [← h.1]
            simp only [List.length_cons]
            omega
      · rw [destuffSpec_cons b rest t hb] at h
        cases hD : destuffSpec rest t with
        | none => rw [hD] at h; cases h
        | some q =>
          obtain ⟨d2, n2⟩ := q
          rw [hD] at h
          simp only [Option.map_some', Option.some.injEq, Prod.mk.injEq] at h
          have := ih rest d2 n2 hD
          rw [← h.1]
          simp only [List.length_cons]
          omega

theorem length_bytes_to_rgb_vec : ∀ l : List Nat, (bytes_to_rgb_vec l).length = l.length / 3
  | [] => by simp [bytes_to_rgb_vec]
  | [_] => by simp [bytes_to_rgb_vec]
  | [_, _] => by simp [bytes_to_rgb_vec]
  | a :: b :: c :: rest => by
    simp only [bytes_to_rgb_vec, List.length_cons, length_bytes_to_rgb_vec rest]
    omega

theorem tryFromArr_some (n : Nat) (l m : List Rgb) (h : tryFromArr n l = some m) :
    m = l ∧ l.length = n := by
  unfold tryFromArr at h
  by_cases hl : l.length = n
  · rw [if_pos hl] at h
    injection h with h2
    exact ⟨h2.symm, hl⟩
  · rw [if_neg hl] at h
    cases h

theorem mapPayload_ok (board : Nat) (rgb_vec : List Rgb) (used : Nat) (p : LedPacket)
    (u : Nat) (h : mapPayload board rgb_vec used = .ok p u) :
    u = used ∧ p.board = board ∧
    (board = 0 → p.payload = .billboardLeft (rgb_vec.take 53) (rgb_vec.drop 53)) ∧
    (board = 1 → p.payload = .billboardRight (rgb_vec.take 60) (rgb_vec.drop 60)) ∧
    (board = 2 → p.payload = .slider rgb_vec.reverse ∧ rgb_vec.length = 31) := by
  cases board with
  | zero =>
    have h0 : (match tryFromArr 53 (rgb_vec.take 53), tryFromArr 3 (rgb_vec.drop 53) with
        | some m, some s => ParseResult.ok ⟨0, .billboardLeft m s⟩ used
        | _, _ => ParseResult.panicked) = ParseResult.ok p u := h
    cases hm : tryFromArr 53 (rgb_vec.take 53) with
    | none => rw [hm] at h0; simp at h0
    | some m =>
      rw [hm] at h0
      cases hs : tryFromArr 3 (rgb_vec.drop 53) with
      | none => rw [hs] at h0; simp at h0
      | some s =>
        rw [hs] at h0
        simp only [ParseResult.ok.injEq] at h0
        obtain ⟨hp, hu⟩ := h0
        obtain ⟨hm2, _⟩ := tryFromArr_some _ _ _ hm
        obtain ⟨hs2, _⟩ := tryFromArr_some _ _ _ hs
        subst hp hu hm2 hs2
        exact ⟨rfl, rfl, fun _ => rfl, fun hc => absurd hc (by omega),
          fun hc => absurd hc (by omega)⟩
  | succ b1 =>
    cases b1 with
    | zero =>
      have h0 : (match tryFromArr 60 (rgb_vec.take 60), tryFromArr 3 (rgb_vec.drop 60) with
          | some m, some s => ParseResult.ok ⟨1, .billboardRight m s⟩ used
          | _, _ => ParseResult.panicked) = ParseResult.ok p u := h
      cases hm : tryFromArr 60 (rgb_vec.take 60) with
      | none => rw [hm] at h0; simp at h0
      | some m =>
        rw [hm] at h0
        cases hs : tryFromArr 3 (rgb_vec.drop 60) with
        | none => rw [hs] at h0; simp at h0
        | some s =>
          rw [hs] at h0
          simp only [ParseResult.ok.injEq] at h0
          obtain ⟨hp, hu⟩ := h0
          obtain ⟨hm2, _⟩ := tryFromArr_some _ _ _ hm
          obtain ⟨hs2, _⟩ := tryFromArr_some _ _ _ hs
          subst hp hu hm2 hs2
          exact ⟨rfl, rfl, fun hc => absurd hc (by omega), fun _ => rfl,
            fun hc => absurd hc (by omega)⟩
    | succ b2 =>
      cases b2 with
      | zero =>
        have h0 : (match tryFromArr 31 rgb_vec with
            | some l => ParseResult.ok ⟨2, .slider (reverse_slider_leds l)⟩ used
            | none => ParseResult.panicked) = ParseResult.ok p u := h
        cases hm : tryFromArr 31 rgb_vec with
        | none => rw [hm] at h0; simp at h0
        | some l =>
          rw [hm] at h0
          simp only [ParseResult.ok.injEq] at h0
          obtain ⟨hp, hu⟩ := h0
          obtain ⟨hm2, hlen31⟩ := tryFromArr_some _ _ _ hm
          subst hp hu hm2
          exact ⟨rfl, rfl, fun hc => absurd hc (by omega), fun hc => absurd hc (by omega),
            fun _ => ⟨rfl, hlen31⟩⟩
      | succ b3 =>
        exact absurd h (by simp [mapPayload])

theorem take_drop_map_getD (l : List Rgb) :
    ∀ (n s : Nat), s + n ≤ l.length →
      (l.drop s).take n = (List.range' s n).map (fun j => l.getD j ⟨0, 0, 0⟩) := by
  intro n
  induction n with
  | zero =>
    intro s h
    simp
  | succ n ih =>
    intro s h
    have hs : s < l.length := by omega
    rw [List.drop_eq_getElem_cons hs, List.range'_succ, List.take_succ_cons, List.map_cons]
    congr 1
    · rw [List.getD_eq_getElem l _ hs]
    · exact ih (s + 1) (by omega)

theorem zoneGroup_eq_map (leds : List Rgb) (hlen : leds.length = 31) (i : Nat) (hi : i < 8) :
    zoneGroup leds i = (List.range' (i * 4) (min (i * 4 + 4) 31 - i * 4)).map
      (fun j => leds.getD j ⟨0, 0, 0⟩) := by
  unfold zoneGroup
  apply take_drop_map_getD
  omega

theorem zoneGroup_length (leds : List Rgb) (hlen : leds.length = 31) (i : Nat) :
    (zoneGroup leds i).length = min (i * 4 + 4) 31 - i * 4 := by
  unfold zoneGroup
  rw [List.length_take, List.length_drop, hlen]
  omega

theorem zoneGroup_subset (leds : List Rgb) (i : Nat) :
    ∀ c ∈ zoneGroup leds i, c ∈ leds := by
  intro c hc
  unfold zoneGroup at hc
  exact List.drop_subset _ _ (List.take_subset _ _ hc)

theorem getD_slider (leds : List Rgb) (i : Nat) (hi : i < 8) :
    (slider_to_drum_pads leds).getD i ⟨0, 0, 0⟩ = padColor (zoneGroup leds i) := by
  have hlen8 : (slider_to_drum_pads leds).length = 8 := by
    simp [slider_to_drum_pads]
  rw [List.getD_eq_getElem _ _ (by rw [hlen8]; exact hi)]
  simp [slider_to_drum_pads]

theorem padColor_nonempty (group : List Rgb) (h : 0 < group.length) :
    padColor group = ⟨((group.map Rgb.r).sum / group.length) % 256,
      ((group.map Rgb.g).sum / group.length) % 256,
      ((group.map Rgb.b).sum / group.length) % 256⟩ := by
  unfold padColor
  rw [if_pos h]

theorem channel_mean_le (group : List Rgb) (f : Rgb → Nat) (hi2 : Nat)
    (h0 : 0 < group.length) (hb : ∀ c ∈ group, f c ≤ hi2) :
    (group.map f).sum / group.length ≤ hi2 := by
  have h1 : (group.map f).sum ≤ group.length * hi2 := by
    have := List.sum_le_card_nsmul (group.map f) hi2 (by
      intro x hx
      obtain ⟨c, hc, rfl⟩ := List.mem_map.mp hx
      exact hb c hc)
    rwa [List.length_map, smul_eq_mul] at this
  calc (group.map f).sum / group.length ≤ group.length * hi2 / group.length :=
    Nat.div_le_div_right h1
  _ = hi2 := Nat.mul_div_cancel_left hi2 h0

theorem le_channel_mean (group : List Rgb) (f : Rgb → Nat) (lo : Nat)
    (h0 : 0 < group.length) (hb : ∀ c ∈ group, lo ≤ f c) :
    lo ≤ (group.map f).sum / group.length := by
  have h1 : group.length * lo ≤ (group.map f).sum := by
    have := List.card_nsmul_le_sum (group.map f) lo (by
      intro x hx
      obtain ⟨c, hc, rfl⟩ := List.mem_map.mp hx
      exact hb c hc)
    rwa [List.length_map, smul_eq_mul] at this
  exact (Nat.le_div_iff_mul_le h0).mpr (by rw [Nat.mul_comm]; exact h1)

theorem padColor_eval (group : List Rgb) (h0 : 0 < group.length)
    (hb : ∀ c ∈ group, c.r ≤ 255 ∧ c.g ≤ 255 ∧ c.b ≤ 255) :
    padColor group = ⟨(group.map Rgb.r).sum / group.length,
      (group.map Rgb.g).sum / group.length,
      (group.map Rgb.b).sum / group.length⟩ := by
  rw [padColor_nonempty group h0]
  have hr := channel_mean_le group Rgb.r 255 h0 (fun c hc => (hb c hc).1)
  have hg := channel_mean_le group Rgb.g 255 h0 (fun c hc => (hb c hc).2.1)
  have hbb := channel_mean_le group Rgb.b 255 h0 (fun c hc => (hb c hc).2.2)
  rw [Nat.mod_eq_of_lt (by omega), Nat.mod_eq_of_lt (by omega), Nat.mod_eq_of_lt (by omega)]

theorem reverse_getD_31 (l : List Rgb) (hl : l.length = 31) (i : Nat) (hi : i < 31) :
    l.reverse.getD i ⟨0, 0, 0⟩ = l.getD (30 - i) ⟨0, 0, 0⟩ := by
  rw [List.getD_eq_getElem?_getD, List.getD_eq_getElem?_getD,
    List.getElem?_reverse (by omega)]
  have h30 : l.length - 1 - i = 30 - i := by omega
  rw [h30]

/-! ## Claim theorems -/

/-- C1: for every buffer whose first byte is the frame marker 0xE0 and whose
second byte is a valid board index, the scanning loop of try_parse_packet
(running from offset 2 with an empty accumulator) computes exactly the spec's
byte-by-byte de-stuffing destuffSpec of the payload region: an escape marker
0xD0 is consumed together with the following byte, which is appended as
(value + 1) mod 256 (a literal 0xFF decoding to 0x00), any other byte is
appended unchanged, and scanning stops when the decoded output reaches the
board's expected length or the buffer is exhausted. -/
theorem c1_scan_is_spec_destuff (buf : List Nat) (hlen : 2 ≤ buf.length)
    (hframe : buf.getD 0 0 = LED_PACKET_FRAMING)
    (hboard : buf.getD 1 0 < LED_BOARDS_TOTAL) :
    parseLoop buf (CHUNI_LED_BOARD_DATA_LENS.getD (buf.getD 1 0) 0) 2 [] =
      (destuffSpec (buf.drop 2) (CHUNI_LED_BOARD_DATA_LENS.getD (buf.getD 1 0) 0)).map
        (fun p => (p.1, p.2 + 2)) ∧
    (∀ c rest t, destuffSpec (LED_PACKET_ESCAPE :: c :: rest) (t + 1) =
      (destuffSpec rest t).map (fun p => ((c + 1) % 256 :: p.1, p.2 + 2))) ∧
    (∀ rest t, destuffSpec (LED_PACKET_ESCAPE :: 255 :: rest) (t + 1) =
      (destuffSpec rest t).map (fun p => (0 :: p.1, p.2 + 2))) ∧
    (∀ b rest t, ¬ b = LED_PACKET_ESCAPE → destuffSpec (b :: rest) (t + 1) =
      (destuffSpec rest t).map (fun p => (b :: p.1, p.2 + 1))) ∧
    (∀ l, destuffSpec l 0 = some ([], 0)) ∧
    (∀ t, destuffSpec [] t = some ([], 0)) := by
  refine ⟨parseLoop_run buf _, destuffSpec_esc, ?_, ?_, ?_, ?_⟩
  · intro rest t
    rw [destuffSpec_esc]
  · intro b rest t h
    exact destuffSpec_cons b rest t h
  · intro l
    cases l <;> simp [destuffSpec]
  · intro t
    cases t <;> simp [destuffSpec]

/-- C1 witness: the scan equivalence at a concrete buffer holding an escape
pair whose literal is 0xFF. -/
theorem c1_witness :
    parseLoop [224, 0, 208, 255, 7]
        (CHUNI_LED_BOARD_DATA_LENS.getD (List.getD [224, 0, 208, 255, 7] 1 0) 0) 2 [] =
      (destuffSpec (List.drop 2 [224, 0, 208, 255, 7])
          (CHUNI_LED_BOARD_DATA_LENS.getD (List.getD [224, 0, 208, 255, 7] 1 0) 0)).map
        (fun p => (p.1, p.2 + 2)) ∧
    (∀ c rest t, destuffSpec (LED_PACKET_ESCAPE :: c :: rest) (t + 1) =
      (destuffSpec rest t).map (fun p => ((c + 1) % 256 :: p.1, p.2 + 2))) ∧
    (∀ rest t, destuffSpec (LED_PACKET_ESCAPE :: 255 :: rest) (t + 1) =
      (destuffSpec rest t).map (fun p => (0 :: p.1, p.2 + 2))) ∧
    (∀ b rest t, ¬ b = LED_PACKET_ESCAPE → destuffSpec (b :: rest) (t + 1) =
      (destuffSpec rest t).map (fun p => (b :: p.1, p.2 + 1))) ∧
    (∀ l, destuffSpec l 0 = some ([], 0)) ∧
    (∀ t, destuffSpec [] t = some ([], 0)) :=
  c1_scan_is_spec_destuff [224, 0, 208, 255, 7] (by decide) (by decide) (by decide)

set_option maxRecDepth 100000 in
/-- C2: the claim's success clause fails on board 0.  A buffer with the frame
marker, board byte 0 and a payload one byte short of the expected 159 decoded
bytes is Incomplete as claimed, but appending the missing byte makes the
decode panic (the board-0 length table entry 53*3 yields only 53 colors,
while the BillboardLeft variant demands 53 + 3), instead of succeeding. -/
theorem c2_board0_incomplete_then_panics :
    try_parse_packet (224 :: 0 :: List.replicate 158 1) = .incomplete ∧
    try_parse_packet (224 :: 0 :: List.replicate 159 1) = .panicked := by
  refine ⟨?_, ?_⟩ <;> (rw [try_parse_eq_spec]; decide)

/-- C3: try_parse_packet returns Invalid exactly when fewer than 2 bytes are
available, or the first byte is not the frame marker 0xE0, or the second byte
is not a board index below 3; trailing bytes play no part in the
condition. -/
theorem c3_invalid_iff (buf : List Nat) :
    try_parse_packet buf = .invalid ↔
      buf.length < 2 ∨ buf.getD 0 0 ≠ LED_PACKET_FRAMING ∨
        LED_BOARDS_TOTAL ≤ buf.getD 1 0 := by
  rw [try_parse_eq_spec]
  unfold tryParseSpec
  by_cases h1 : buf.length < 2 ∨ buf.getD 0 0 ≠ LED_PACKET_FRAMING
  · rw [if_pos h1]
    simp only [true_iff]
    tauto
  · rw [if_neg h1]
    by_cases h2 : LED_BOARDS_TOTAL ≤ buf.getD 1 0
    · rw [if_pos h2]
      simp only [true_iff]
      tauto
    · rw [if_neg h2]
      have hR : ¬(buf.length < 2 ∨ buf.getD 0 0 ≠ LED_PACKET_FRAMING ∨
          LED_BOARDS_TOTAL ≤ buf.getD 1 0) := by tauto
      simp only [hR, iff_false]
      have hb : buf.getD 1 0 < 3 := by
        have := not_le.mp h2
        simpa [LED_BOARDS_TOTAL] using this
      exact finishParse_ne_invalid (buf.getD 1 0) hb _

/-- C3 witness: a buffer whose board byte is 3 is Invalid despite its
trailing bytes. -/
theorem c3_witness : try_parse_packet [224, 3, 1, 2, 3, 4] = .invalid :=
  (c3_invalid_iff [224, 3, 1, 2, 3, 4]).mpr (by decide)

set_option maxRecDepth 100000 in
/-- C7: the claim that the decoder never panics fails on board 0: a complete
board-0 frame reaches the fixed-size array construction with only 53 colors
where 53 + 3 are required, and the modelled unwrap fails.  The other half of
the claim holds: a decoded byte sequence whose length is not a multiple of 3
has its truncated trailing group silently dropped by bytes_to_rgb_vec. -/
theorem c7_board0_complete_frame_panics :
    try_parse_packet (224 :: 0 :: List.replicate 159 7) = .panicked ∧
    bytes_to_rgb_vec [1, 2, 3, 4, 5] = [⟨2, 3, 1⟩] := by
  refine ⟨?_, rfl⟩
  rw [try_parse_eq_spec]
  decide

/-- C4: every successfully decoded packet has its decoded bytes grouped into
consecutive triples mapped to Color with r = byte1, g = byte2, b = byte0;
board 0 maps to Billboard-Left with the first 53 colors as main and the next
3 as side, board 1 to Billboard-Right with 60 main and 3 side, and board 2 to
Slider with the 31 colors reversed, so physical index i is wire triple
30 - i. -/
theorem c4_payload_mapping (buf : List Nat) (p : LedPacket) (used : Nat)
    (h : try_parse_packet buf = .ok p used) : decodedPayloadShape buf p used := by
  refine ⟨fun b0 b1 b2 rest => rfl, ?_⟩
  have h' : tryParseSpec buf = .ok p used := by rw [← try_parse_eq_spec]; exact h
  unfold tryParseSpec at h'
  by_cases h1 : buf.length < 2 ∨ buf.getD 0 0 ≠ LED_PACKET_FRAMING
  · rw [if_pos h1] at h'
    cases h'
  rw [if_neg h1] at h'
  by_cases h2 : LED_BOARDS_TOTAL ≤ buf.getD 1 0
  · rw [if_pos h2] at h'
    cases h'
  rw [if_neg h2] at h'
  cases hD : destuffSpec (buf.drop 2) (CHUNI_LED_BOARD_DATA_LENS.getD (buf.getD 1 0) 0) with
  | none =>
    rw [hD] at h'
    cases h'
  | some q =>
    obtain ⟨d, n⟩ := q
    rw [hD] at h'
    have h3 : (if d.length < CHUNI_LED_BOARD_DATA_LENS.getD (buf.getD 1 0) 0 then
        ParseResult.incomplete
      else mapPayload (buf.getD 1 0) (bytes_to_rgb_vec d) (n + 2)) = ParseResult.ok p used := h'
    by_cases hlen2 : d.length < CHUNI_LED_BOARD_DATA_LENS.getD (buf.getD 1 0) 0
    · rw [if_pos hlen2] at h3
      cases h3
    rw [if_neg hlen2] at h3
    obtain ⟨hu, hb, hb0, hb1, hb2⟩ := mapPayload_ok _ _ _ _ _ h3
    refine ⟨d, n, rfl, hb, hu, ?_, ?_, ?_⟩
    · intro hq
      exact hb0 (by rw [← hb]; exact hq)
    · intro hq
      exact hb1 (by rw [← hb]; exact hq)
    · intro hq
      obtain ⟨hpay, hlen31⟩ := hb2 (by rw [← hb]; exact hq)
      refine ⟨hpay, fun i hi => reverse_getD_31 _ hlen31 i hi⟩

set_option maxRecDepth 100000 in
/-- C4 witness: the concrete scenario of the claim, a board-2 frame with 93
distinct payload bytes none of which is 0xD0 or 0xE0. -/
theorem c4_witness :
    decodedPayloadShape ([224, 2] ++ List.range 93)
      ⟨2, .slider ((bytes_to_rgb_vec (List.range 93)).reverse)⟩ 95 :=
  c4_payload_mapping ([224, 2] ++ List.range 93)
    ⟨2, .slider ((bytes_to_rgb_vec (List.range 93)).reverse)⟩ 95
    (by rw [try_parse_eq_spec]; decide)

/-- C5: for a 31-color slider array with 8-bit channels, the Zone Reducer
produces exactly 8 zones; zone i is the per-channel truncating integer mean
of the colors at physical indices i*4 up to min (i*4+4) 31; an array of 31
identical colors reduces to 8 copies of that color; and changing only the
LED at index 30 leaves zones 0 through 6 unchanged. -/
theorem c5_zone_reducer (leds : List Rgb) (hlen : leds.length = 31)
    (hchan : ∀ c ∈ leds, c.r ≤ 255 ∧ c.g ≤ 255 ∧ c.b ≤ 255) :
    (slider_to_drum_pads leds).length = 8 ∧
    (∀ i, i < 8 →
      (slider_to_drum_pads leds).getD i ⟨0, 0, 0⟩ =
        { r := ((List.range' (i * 4) (min (i * 4 + 4) 31 - i * 4)).map
              (fun j => (leds.getD j ⟨0, 0, 0⟩).r)).sum / (min (i * 4 + 4) 31 - i * 4),
          g := ((List.range' (i * 4) (min (i * 4 + 4) 31 - i * 4)).map
              (fun j => (leds.getD j ⟨0, 0, 0⟩).g)).sum / (min (i * 4 + 4) 31 - i * 4),
          b := ((List.range' (i * 4) (min (i * 4 + 4) 31 - i * 4)).map
              (fun j => (leds.getD j ⟨0, 0, 0⟩).b)).sum / (min (i * 4 + 4) 31 - i * 4) }) ∧
    (∀ C : Rgb, C.r ≤ 255 → C.g ≤ 255 → C.b ≤ 255 →
      slider_to_drum_pads (List.replicate 31 C) = List.replicate 8 C) ∧
    (∀ leds2 : List Rgb, leds2.length = 31 →
      (∀ j, j < 31 → j ≠ 30 → leds2.getD j ⟨0, 0, 0⟩ = leds.getD j ⟨0, 0, 0⟩) →
      ∀ i, i < 7 →
        (slider_to_drum_pads leds2).getD i ⟨0, 0, 0⟩ =
          (slider_to_drum_pads leds).getD i ⟨0, 0, 0⟩) := by
  refine ⟨by simp [slider_to_drum_pads], ?_, ?_, ?_⟩
  · intro i hi
    have hcount := zoneGroup_length leds hlen i
    have h0 : 0 < (zoneGroup leds i).length := by rw [hcount]; omega
    have hbounds : ∀ c ∈ zoneGroup leds i, c.r ≤ 255 ∧ c.g ≤ 255 ∧ c.b ≤ 255 :=
      fun c hc => hchan c (zoneGroup_subset leds i c hc)
    rw [getD_slider leds i hi, padColor_eval _ h0 hbounds,
      zoneGroup_eq_map leds hlen i hi]
    simp [List.map_map, Function.comp_def]
  · intro C hr hg hb2
    have hlenr : (List.replicate 31 C).length = 31 := by simp
    have key : ∀ i, i < 8 → (slider_to_drum_pads (List.replicate 31 C)).getD i ⟨0, 0, 0⟩ = C := by
      intro i hi
      have hcount := zoneGroup_length (List.replicate 31 C) hlenr i
      have h0 : 0 < (zoneGroup (List.replicate 31 C) i).length := by rw [hcount]; omega
      have hb3 : ∀ c ∈ zoneGroup (List.replicate 31 C) i, c.r ≤ 255 ∧ c.g ≤ 255 ∧ c.b ≤ 255 := by
        intro c hc
        have := List.eq_of_mem_replicate (zoneGroup_subset _ _ c hc)
        subst this
        exact ⟨hr, hg, hb2⟩
      have hrep : zoneGroup (List.replicate 31 C) i =
          List.replicate (zoneGroup (List.replicate 31 C) i).length C := by
        apply List.eq_replicate_length.mpr
        intro b hb4
        exact List.eq_of_mem_replicate (zoneGroup_subset _ _ b hb4)
      rw [getD_slider _ i hi, padColor_eval _ h0 hb3]
      obtain ⟨k, hk⟩ : ∃ k, (zoneGroup (List.replicate 31 C) i).length = k + 1 :=
        ⟨(zoneGroup (List.replicate 31 C) i).length - 1, by omega⟩
      conv_lhs => rw [hrep, hk]
      simp only [List.map_replicate, List.sum_replicate, smul_eq_mul, List.length_replicate]
      rw [Nat.mul_div_cancel_left C.r (by omega), Nat.mul_div_cancel_left C.g (by omega),
        Nat.mul_div_cancel_left C.b (by omega)]
    apply List.ext_getElem
    · simp [slider_to_drum_pads]
    · intro i h1 h2
      have hi8 : i < 8 := by simpa [slider_to_drum_pads] using h1
      have hkey := key i hi8
      rw [List.getD_eq_getElem _ _ h1] at hkey
      rw [hkey, List.getElem_replicate]
  · intro leds2 hlen2 hagree i hi7
    have hi8 : i < 8 := by omega
    rw [getD_slider leds2 i hi8, getD_slider leds i hi8,
      zoneGroup_eq_map leds2 hlen2 i hi8, zoneGroup_eq_map leds hlen i hi8]
    congr 1
    apply List.map_congr_left
    intro j hj
    obtain ⟨k, hk, rfl⟩ := List.mem_range'.mp hj
    apply hagree
    · omega
    · omega

/-- C5 witness: the theorem instantiated at 31 copies of a concrete color. -/
theorem c5_witness :
    (slider_to_drum_pads (List.replicate 31 ⟨10, 20, 30⟩)).length = 8 ∧
    (∀ i, i < 8 →
      (slider_to_drum_pads (List.replicate 31 ⟨10, 20, 30⟩)).getD i ⟨0, 0, 0⟩ =
        { r := ((List.range' (i * 4) (min (i * 4 + 4) 31 - i * 4)).map
              (fun j => ((List.replicate 31 (⟨10, 20, 30⟩ : Rgb)).getD j ⟨0, 0, 0⟩).r)).sum /
            (min (i * 4 + 4) 31 - i * 4),
          g := ((List.range' (i * 4) (min (i * 4 + 4) 31 - i * 4)).map
              (fun j => ((List.replicate 31 (⟨10, 20, 30⟩ : Rgb)).getD j ⟨0, 0, 0⟩).g)).sum /
            (min (i * 4 + 4) 31 - i * 4),
          b := ((List.range' (i * 4) (min (i * 4 + 4) 31 - i * 4)).map
              (fun j => ((List.replicate 31 (⟨10, 20, 30⟩ : Rgb)).getD j ⟨0, 0, 0⟩).b)).sum /
            (min (i * 4 + 4) 31 - i * 4) }) ∧
    (∀ C : Rgb, C.r ≤ 255 → C.g ≤ 255 → C.b ≤ 255 →
      slider_to_drum_pads (List.replicate 31 C) = List.replicate 8 C) ∧
    (∀ leds2 : List Rgb, leds2.length = 31 →
      (∀ j, j < 31 → j ≠ 30 →
        leds2.getD j ⟨0, 0, 0⟩ = (List.replicate 31 (⟨10, 20, 30⟩ : Rgb)).getD j ⟨0, 0, 0⟩) →
      ∀ i, i < 7 →
        (slider_to_drum_pads leds2).getD i ⟨0, 0, 0⟩ =
          (slider_to_drum_pads (List.replicate 31 ⟨10, 20, 30⟩)).getD i ⟨0, 0, 0⟩) :=
  c5_zone_reducer (List.replicate 31 ⟨10, 20, 30⟩) (by decide) (by decide)

/-- C10: the Zone Reducer's arithmetic is exact for a 31-color slider with
8-bit channels: every zone group has 3 or 4 members (the divisor is never
zero, so the zero-count guard is never needed), each per-channel sum is at
most 4 * 255 = 1020 and so far below 2^32 (the u32 accumulators cannot
overflow), each output channel lies between any lower and upper bound of its
members' channel values, and the truncating mean is below 256, so the
narrowing cast to u8 changes nothing. -/
theorem c10_zone_arithmetic (leds : List Rgb) (hlen : leds.length = 31)
    (hchan : ∀ c ∈ leds, c.r ≤ 255 ∧ c.g ≤ 255 ∧ c.b ≤ 255)
    (i : Nat) (hi : i < 8) :
    3 ≤ (zoneGroup leds i).length ∧ (zoneGroup leds i).length ≤ 4 ∧
    ((zoneGroup leds i).map Rgb.r).sum ≤ 1020 ∧
    ((zoneGroup leds i).map Rgb.g).sum ≤ 1020 ∧
    ((zoneGroup leds i).map Rgb.b).sum ≤ 1020 ∧
    (1020 : Nat) < 2 ^ 32 ∧
    (∀ lo, (∀ c ∈ zoneGroup leds i, lo ≤ c.r) →
      lo ≤ ((slider_to_drum_pads leds).getD i ⟨0, 0, 0⟩).r) ∧
    (∀ up, (∀ c ∈ zoneGroup leds i, c.r ≤ up) →
      ((slider_to_drum_pads leds).getD i ⟨0, 0, 0⟩).r ≤ up) ∧
    (∀ lo, (∀ c ∈ zoneGroup leds i, lo ≤ c.g) →
      lo ≤ ((slider_to_drum_pads leds).getD i ⟨0, 0, 0⟩).g) ∧
    (∀ up, (∀ c ∈ zoneGroup leds i, c.g ≤ up) →
      ((slider_to_drum_pads leds).getD i ⟨0, 0, 0⟩).g ≤ up) ∧
    (∀ lo, (∀ c ∈ zoneGroup leds i, lo ≤ c.b) →
      lo ≤ ((slider_to_drum_pads leds).getD i ⟨0, 0, 0⟩).b) ∧
    (∀ up, (∀ c ∈ zoneGroup leds i, c.b ≤ up) →
      ((slider_to_drum_pads leds).getD i ⟨0, 0, 0⟩).b ≤ up) ∧
    (((zoneGroup leds i).map Rgb.r).sum / (zoneGroup leds i).length) % 256 =
      ((zoneGroup leds i).map Rgb.r).sum / (zoneGroup leds i).length ∧
    (((zoneGroup leds i).map Rgb.g).sum / (zoneGroup leds i).length) % 256 =
      ((zoneGroup leds i).map Rgb.g).sum / (zoneGroup leds i).length ∧
    (((zoneGroup leds i).map Rgb.b).sum / (zoneGroup leds i).length) % 256 =
      ((zoneGroup leds i).map Rgb.b).sum / (zoneGroup leds i).length := by
  have hcount := zoneGroup_length leds hlen i
  have h0 : 0 < (zoneGroup leds i).length := by rw [hcount]; omega
  have hbounds : ∀ c ∈ zoneGroup leds i, c.r ≤ 255 ∧ c.g ≤ 255 ∧ c.b ≤ 255 :=
    fun c hc => hchan c (zoneGroup_subset leds i c hc)
  have hsum : ∀ f : Rgb → Nat, (∀ c ∈ zoneGroup leds i, f c ≤ 255) →
      ((zoneGroup leds i).map f).sum ≤ 1020 := by
    intro f hf
    have h1 : ((zoneGroup leds i).map f).sum ≤ (zoneGroup leds i).length * 255 := by
      have := List.sum_le_card_nsmul ((zoneGroup leds i).map f) 255 (by
        intro x hx
        obtain ⟨c, hc, rfl⟩ := List.mem_map.mp hx
        exact hf c hc)
      rwa [List.length_map, smul_eq_mul] at this
    have h2 : (zoneGroup leds i).length ≤ 4 := by rw [hcount]; omega
    calc ((zoneGroup leds i).map f).sum ≤ (zoneGroup leds i).length * 255 := h1
    _ ≤ 4 * 255 := Nat.mul_le_mul_right 255 h2
    _ = 1020 := by norm_num
  have hpad : (slider_to_drum_pads leds).getD i ⟨0, 0, 0⟩ =
      ⟨((zoneGroup leds i).map Rgb.r).sum / (zoneGroup leds i).length,
        ((zoneGroup leds i).map Rgb.g).sum / (zoneGroup leds i).length,
        ((zoneGroup leds i).map Rgb.b).sum / (zoneGroup leds i).length⟩ := by
    rw [getD_slider leds i hi, padColor_eval _ h0 hbounds]
  refine ⟨by rw [hcount]; omega, by rw [hcount]; omega,
    hsum Rgb.r (fun c hc => (hbounds c hc).1),
    hsum Rgb.g (fun c hc => (hbounds c hc).2.1),
    hsum Rgb.b (fun c hc => (hbounds c hc).2.2),
    by norm_num, ?_, ?_, ?_, ?_, ?_, ?_,
    Nat.mod_eq_of_lt (by
      have := channel_mean_le (zoneGroup leds i) Rgb.r 255 h0 (fun c hc => (hbounds c hc).1)
      omega),
    Nat.mod_eq_of_lt (by
      have := channel_mean_le (zoneGroup leds i) Rgb.g 255 h0 (fun c hc => (hbounds c hc).2.1)
      omega),
    Nat.mod_eq_of_lt (by
      have := channel_mean_le (zoneGroup leds i) Rgb.b 255 h0 (fun c hc => (hbounds c hc).2.2)
      omega)⟩
  · intro lo hlo
    rw [hpad]
    exact le_channel_mean (zoneGroup leds i) Rgb.r lo h0 hlo
  · intro up hup
    rw [hpad]
    exact channel_mean_le (zoneGroup leds i) Rgb.r up h0 hup
  · intro lo hlo
    rw [hpad]
    exact le_channel_mean (zoneGroup leds i) Rgb.g lo h0 hlo
  · intro up hup
    rw [hpad]
    exact channel_mean_le (zoneGroup leds i) Rgb.g up h0 hup
  · intro lo hlo
    rw [hpad]
    exact le_channel_mean (zoneGroup leds i) Rgb.b lo h0 hlo
  · intro up hup
    rw [hpad]
    exact channel_mean_le (zoneGroup leds i) Rgb.b up h0 hup

/-- C10 witness: the arithmetic facts instantiated at a concrete slider and
the last zone (the 3-member group). -/
theorem c10_witness :
    3 ≤ (zoneGroup (List.replicate 31 ⟨5, 6, 7⟩) 7).length ∧
    (zoneGroup (List.replicate 31 ⟨5, 6, 7⟩) 7).length ≤ 4 ∧
    ((zoneGroup (List.replicate 31 ⟨5, 6, 7⟩) 7).map Rgb.r).sum ≤ 1020 ∧
    ((zoneGroup (List.replicate 31 ⟨5, 6, 7⟩) 7).map Rgb.g).sum ≤ 1020 ∧
    ((zoneGroup (List.replicate 31 ⟨5, 6, 7⟩) 7).map Rgb.b).sum ≤ 1020 ∧
    (1020 : Nat) < 2 ^ 32 ∧
    (∀ lo, (∀ c ∈ zoneGroup (List.replicate 31 ⟨5, 6, 7⟩) 7, lo ≤ c.r) →
      lo ≤ ((slider_to_drum_pads (List.replicate 31 ⟨5, 6, 7⟩)).getD 7 ⟨0, 0, 0⟩).r) ∧
    (∀ up, (∀ c ∈ zoneGroup (List.replicate 31 ⟨5, 6, 7⟩) 7, c.r ≤ up) →
      ((slider_to_drum_pads (List.replicate 31 ⟨5, 6, 7⟩)).getD 7 ⟨0, 0, 0⟩).r ≤ up) ∧
    (∀ lo, (∀ c ∈ zoneGroup (List.replicate 31 ⟨5, 6, 7⟩) 7, lo ≤ c.g) →
      lo ≤ ((slider_to_drum_pads (List.replicate 31 ⟨5, 6, 7⟩)).getD 7 ⟨0, 0, 0⟩).g) ∧
    (∀ up, (∀ c ∈ zoneGroup (List.replicate 31 ⟨5, 6, 7⟩) 7, c.g ≤ up) →
      ((slider_to_drum_pads (List.replicate 31 ⟨5, 6, 7⟩)).getD 7 ⟨0, 0, 0⟩).g ≤ up) ∧
    (∀ lo, (∀ c ∈ zoneGroup (List.replicate 31 ⟨5, 6, 7⟩) 7, lo ≤ c.b) →
      lo ≤ ((slider_to_drum_pads (List.replicate 31 ⟨5, 6, 7⟩)).getD 7 ⟨0, 0, 0⟩).b) ∧
    (∀ up, (∀ c ∈ zoneGroup (List.replicate 31 ⟨5, 6, 7⟩) 7, c.b ≤ up) →
      ((slider_to_drum_pads (List.replicate 31 ⟨5, 6, 7⟩)).getD 7 ⟨0, 0, 0⟩).b ≤ up) ∧
    (((zoneGroup (List.replicate 31 ⟨5, 6, 7⟩) 7).map Rgb.r).sum /
        (zoneGroup (List.replicate 31 ⟨5, 6, 7⟩) 7).length) % 256 =
      ((zoneGroup (List.replicate 31 ⟨5, 6, 7⟩) 7).map Rgb.r).sum /
        (zoneGroup (List.replicate 31 ⟨5, 6, 7⟩) 7).length ∧
    (((zoneGroup (List.replicate 31 ⟨5, 6, 7⟩) 7).map Rgb.g).sum /
        (zoneGroup (List.replicate 31 ⟨5, 6, 7⟩) 7).length) % 256 =
      ((zoneGroup (List.replicate 31 ⟨5, 6, 7⟩) 7).map Rgb.g).sum /
        (zoneGroup (List.replicate 31 ⟨5, 6, 7⟩) 7).length ∧
    (((zoneGroup (List.replicate 31 ⟨5, 6, 7⟩) 7).map Rgb.b).sum /
        (zoneGroup (List.replicate 31 ⟨5, 6, 7⟩) 7).length) % 256 =
      ((zoneGroup (List.replicate 31 ⟨5, 6, 7⟩) 7).map Rgb.b).sum /
        (zoneGroup (List.replicate 31 ⟨5, 6, 7⟩) 7).length :=
  c10_zone_arithmetic (List.replicate 31 ⟨5, 6, 7⟩) (by decide) (by decide) 7 (by decide)

theorem destuff_encode (payload : List Nat) (hb : ∀ b ∈ payload, b < 256) :
    destuffSpec (encode_payload payload) payload.length =
      some (payload, (encode_payload payload).length) := by
  induction payload with
  | nil => simp [encode_payload, destuffSpec]
  | cons b rest ih =>
    have hb2 : b < 256 := hb b (List.mem_cons_self b rest)
    have ihh := ih (fun x hx => hb x (List.mem_cons_of_mem b hx))
    by_cases hesc : b = LED_PACKET_ESCAPE ∨ b = LED_PACKET_FRAMING
    · have henc : encode_payload (b :: rest) =
          LED_PACKET_ESCAPE :: (b + 255) % 256 :: encode_payload rest := by
        simp [encode_payload, hesc]
      rw [henc]
      simp only [List.length_cons]
      rw [destuffSpec_esc, ihh]
      have hx : ((b + 255) % 256 + 1) % 256 = b := by omega
      simp [hx, henc]
    · have henc : encode_payload (b :: rest) = b :: encode_payload rest := by
        simp [encode_payload, hesc]
      rw [henc]
      simp only [List.length_cons]
      rw [destuffSpec_cons b _ _ (fun h => hesc (Or.inl h)), ihh]
      simp [henc]

/-- C6: modelled from the spec — the arcade-side encoder is not in this
repository, so encode_payload follows the spec's wire format.  For a payload
of any board's fixed length whose bytes are 8-bit values, de-stuffing the
byte-stuffed encoding with the payload's length as target yields exactly the
original payload (hence equal length), consuming the whole encoding; the
wrap case, an escape followed by the literal 0xFF, decodes to 0x00. -/
theorem c6_roundtrip (payload : List Nat)
    (hlen : payload.length = 53 * 3 ∨ payload.length = 63 * 3 ∨ payload.length = 31 * 3)
    (hb : ∀ b ∈ payload, b < 256) :
    destuffSpec (encode_payload payload) payload.length =
      some (payload, (encode_payload payload).length) ∧
    (∀ rest t, destuffSpec (LED_PACKET_ESCAPE :: 255 :: rest) (t + 1) =
      (destuffSpec rest t).map (fun p => (0 :: p.1, p.2 + 2))) := by
  refine ⟨destuff_encode payload hb, fun rest t => ?_⟩
  rw [destuffSpec_esc]

/-- C6 witness: a board-2-length payload holding the escape marker, the frame
marker and 0xFF. -/
theorem c6_witness :
    destuffSpec (encode_payload (List.replicate 90 1 ++ [208, 224, 255]))
        (List.replicate 90 1 ++ [208, 224, 255]).length =
      some (List.replicate 90 1 ++ [208, 224, 255],
        (encode_payload (List.replicate 90 1 ++ [208, 224, 255])).length) ∧
    (∀ rest t, destuffSpec (LED_PACKET_ESCAPE :: 255 :: rest) (t + 1) =
      (destuffSpec rest t).map (fun p => (0 :: p.1, p.2 + 2))) :=
  c6_roundtrip (List.replicate 90 1 ++ [208, 224, 255]) (by decide) (by decide)

/-- C8: in the stream loop, the sink call is attempted exactly when the fresh
Pad Zone Summary differs from the remembered last successfully forwarded one
(a first summary is always sent); after a cycle whose send succeeded, an
identical summary in the next cycle is not sent again; and a failed sink
send leaves the remembered last summary unchanged (the loop itself goes on,
dedupStep being a total step function). -/
theorem c8_dedup :
    (∀ last pads sinkOk, (dedupStep last pads sinkOk).1 = decide (last ≠ some pads)) ∧
    (∀ last pads, (dedupStep (dedupStep last pads true).2 pads true).1 = false) ∧
    (∀ last pads, (dedupStep last pads false).2 = last) := by
  refine ⟨?_, ?_, ?_⟩
  · intro last pads sinkOk
    cases last with
    | none => simp [dedupStep]
    | some l =>
      by_cases h : l = pads
      · subst h
        simp [dedupStep]
      · simp [dedupStep, h]
  · intro last pads
    cases last with
    | none => simp [dedupStep]
    | some l =>
      by_cases h : l = pads
      · subst h
        simp [dedupStep]
      · simp [dedupStep, h]
  · intro last pads
    cases last with
    | none => simp [dedupStep]
    | some l =>
      by_cases h : l = pads
      · subst h
        simp [dedupStep]
      · simp [dedupStep, h]

theorem firstMarkerPos_garbage :
    ∀ g : List Nat, (∀ b ∈ g, b ≠ LED_PACKET_FRAMING) →
      ∀ rest : List Nat,
        firstMarkerPos (g ++ LED_PACKET_FRAMING :: rest) = some g.length := by
  intro g
  induction g with
  | nil =>
    intro _ rest
    simp [firstMarkerPos]
  | cons a arest ih =>
    intro hg rest
    have ha : a ≠ LED_PACKET_FRAMING := hg a (List.mem_cons_self a arest)
    rw [List.cons_append]
    show (if a = LED_PACKET_FRAMING then some 0
      else (firstMarkerPos (arest ++ LED_PACKET_FRAMING :: rest)).map (· + 1)) = _
    rw [if_neg ha, ih (fun b hb => hg b (List.mem_cons_of_mem a hb)) rest]
    simp

/-- C9: one iteration of the stream loop on a window made of marker-free
garbage followed by a chunk starting with the frame marker discards exactly
the garbage and dispatches on the decode of the remaining chunk, unaffected
by the garbage: on success exactly the reported consumed count is dropped
from the head, on Invalid exactly one byte is dropped (synchronization
retried immediately, the loop continuing), and on Incomplete the inner loop
stops keeping the window to wait for more bytes. -/
theorem c9_stream_resync (g w : List Nat)
    (hg : ∀ b ∈ g, b ≠ LED_PACKET_FRAMING)
    (hw : w.getD 0 0 = LED_PACKET_FRAMING) (hne : w ≠ []) :
    innerStep (g ++ w) = stepAfterSync w ∧
    (∀ p used, try_parse_packet w = .ok p used →
      stepAfterSync w = .continueWith (w.drop used)) ∧
    (try_parse_packet w = .invalid → stepAfterSync w = .continueWith (w.drop 1)) ∧
    (try_parse_packet w = .incomplete → stepAfterSync w = .waitWith w) := by
  obtain ⟨w0, wrest, rfl⟩ : ∃ w0 wrest, w = w0 :: wrest := by
    cases w with
    | nil => exact absurd rfl hne
    | cons a b => exact ⟨a, b, rfl⟩
  have hw0 : w0 = LED_PACKET_FRAMING := by simpa using hw
  subst hw0
  refine ⟨?_, ?_, ?_, ?_⟩
  · unfold innerStep
    rw [firstMarkerPos_garbage g hg wrest]
    show stepAfterSync ((g ++ LED_PACKET_FRAMING :: wrest).drop g.length) = _
    rw [List.drop_left]
  · intro p used hcase
    unfold stepAfterSync
    rw [hcase]
  · intro hcase
    unfold stepAfterSync
    rw [hcase]
  · intro hcase
    unfold stepAfterSync
    rw [hcase]

set_option maxRecDepth 100000 in
/-- C9 witness: three garbage bytes before a board-2 frame whose payload is
still one byte short, so the loop waits for more bytes. -/
theorem c9_witness :
    innerStep ([1, 2, 3] ++ (224 :: 2 :: List.replicate 92 9)) =
      stepAfterSync (224 :: 2 :: List.replicate 92 9) ∧
    (∀ p used, try_parse_packet (224 :: 2 :: List.replicate 92 9) = .ok p used →
      stepAfterSync (224 :: 2 :: List.replicate 92 9) =
        .continueWith ((224 :: 2 :: List.replicate 92 9).drop used)) ∧
    (try_parse_packet (224 :: 2 :: List.replicate 92 9) = .invalid →
      stepAfterSync (224 :: 2 :: List.replicate 92 9) =
        .continueWith ((224 :: 2 :: List.replicate 92 9).drop 1)) ∧
    (try_parse_packet (224 :: 2 :: List.replicate 92 9) = .incomplete →
      stepAfterSync (224 :: 2 :: List.replicate 92 9) =
        .waitWith (224 :: 2 :: List.replicate 92 9)) :=
  c9_stream_resync [1, 2, 3] (224 :: 2 :: List.replicate 92 9)
    (by decide) (by decide) (by decide)

end Chunimidi
